import Mathlib

/-!
Verification of the signal windowing and adaptive-resolution engine of
pod5Viewer against its design document.

The definitions below are shallow embeddings of the relevant functions of
src/pod5Viewer/figureWindow.py and src/pod5Viewer/viewWindow.py.  Machine
floats carrying signal values are modelled as exact rationals; a NaN entry
(used by the source as padding for short reads) is modelled as the value
none of type Option Rat.  Pixel and data-index coordinates, which the source
handles as Python ints, are modelled as Int; Python float true division is
rational division, and Python floor division and int() truncation of
nonnegative quotients are Nat or Int euclidean division.
-/

namespace Pod5Viewer

/-- Ceiling division on naturals: the number of bins of size b needed to
cover a elements, as computed by math.ceil(a / b) for positive b. -/
def ceilDiv (a b : Nat) : Nat := (a + b - 1) / b

/-- Python range(start, stop, step) for nonnegative arguments, written with
explicit fuel so that it is structurally recursive and reduces inside the
kernel.  For step greater than zero, fuel = stop - start is always enough. -/
def pyRangeAux : Nat → Nat → Nat → Nat → List Nat
  | 0, _, _, _ => []
  | fuel + 1, start, stop, step =>
      if start < stop then start :: pyRangeAux fuel (start + step) stop step
      else []

/-- Python range(start, stop, step) for nonnegative arguments and positive
step. -/
def pyRange (start stop step : Nat) : List Nat :=
  pyRangeAux (stop - start) start stop step

/-- Median of a list of rationals as computed by numpy.median on an array
without NaN entries: sort ascending; for odd length take the middle element,
for even length take the mean of the two middle elements. -/
def ratMedian (l : List ℚ) : ℚ :=
  let s := List.insertionSort (· ≤ ·) l
  if l.length % 2 = 1 then s.getD (l.length / 2) 0
  else (s.getD (l.length / 2 - 1) 0 + s.getD (l.length / 2) 0) / 2

/-- numpy.median on a float array modelled with Option Rat, where none is
NaN.  numpy.median yields NaN whenever the array contains a NaN (NaN sorts
last and the implementation inspects the last partition element), and NaN on
an empty array; otherwise it is the plain median of the values. -/
def npMedian (l : List (Option ℚ)) : Option ℚ :=
  if l.isEmpty ∨ none ∈ l then none
  else some (ratMedian (l.filterMap id))

/-- Shallow embedding of subsample_data inside FigureWindow.update_plot
(figureWindow.py lines 662 to 669), which is also the subsetting branch of
OverviewWidget.set_data (lines 116 to 130): bin_size = max(1, int(N /
target_bins)); the first component is x[::bin_size] for x = arange(N), i.e.
the bin representative indices; the second component is
[np.median(y[i:i+bin_size]) for i in range(0, N, bin_size)]. -/
def subsample_data (y : List (Option ℚ)) (target_bins : Nat) :
    List Nat × List (Option ℚ) :=
  let bin_size := max 1 (y.length / target_bins)
  (pyRange 0 y.length bin_size,
   (pyRange 0 y.length bin_size).map
     (fun i => npMedian ((y.drop i).take bin_size)))

/-- Slice of the input aggregated into bin k by subsample_data: the k-th
chunk y[i:i+bin_size] with i = k * bin_size. -/
def bin_slice (y : List (Option ℚ)) (target_bins k : Nat) : List (Option ℚ) :=
  (y.drop (k * max 1 (y.length / target_bins))).take
    (max 1 (y.length / target_bins))

/-- Shallow embedding of OverviewWidget.mouseReleaseEvent (figureWindow.py
lines 292 to 327), given that a selection is in progress and the left button
was released: sort anchor and release pixel, apply the small-selection
adjustments, clamp to x_lims = (x_min, x_max), and return the emitted pair
(start_x / width, end_x / width).  The Python expression
int((end_x - start_x) / 2) truncates a nonnegative quotient, which is
euclidean division here. -/
def mouseReleaseEvent (anchor release x_min x_max width : ℤ) : ℚ × ℚ :=
  let start0 := min anchor release
  let end0 := max anchor release
  let start1 :=
    if end0 = start0 then start0 - 1
    else if end0 - start0 < 10 then (end0 - start0) / 2 - 1
    else start0
  let end1 :=
    if end0 = start0 then end0 + 1
    else if end0 - start0 < 10 then (end0 - start0) / 2 + 1
    else end0
  let start2 := max x_min start1
  let end2 := min x_max end1
  ((start2 : ℚ) / (width : ℚ), (end2 : ℚ) / (width : ℚ))

/-- Shallow embedding of OverviewWidget.set_zoom (figureWindow.py lines 337
to 372): x1 = min(x1, x2); then x2 = max(x1, x2), where the max is taken
with the already reassigned x1, exactly as in the source; clamp to
[x_min, x_max]; emit ((x1 - x_min) / (x_max - x_min),
(x2 - x_min) / (x_max - x_min)). -/
def set_zoom (x1 x2 x_min x_max : ℤ) : ℚ × ℚ :=
  let x1a := min x1 x2
  let x2a := max x1a x2
  let x1b := max x_min x1a
  let x2b := min x_max x2a
  (((x1b - x_min : ℤ) : ℚ) / ((x_max - x_min : ℤ) : ℚ),
   ((x2b - x_min : ℤ) : ℚ) / ((x_max - x_min : ℤ) : ℚ))

/-- Data-to-pixel affine map of OverviewWidget.scale_between
(figureWindow.py line 193), applied to a single value with the array minimum
and maximum as the data domain: a + (b - a) * (v - min) / (max - min). -/
def data_to_pixel (v dmin dmax pmin pmax : ℚ) : ℚ :=
  pmin + (pmax - pmin) * (v - dmin) / (dmax - dmin)

/-- Modelled from the spec: pixel_to_data, the exact inverse of
data_to_pixel (spec section 4.2).  The source has no named inverse function
(the release handler divides pixel coordinates by the widget width
directly), so the inverse affine map is taken from the specification text. -/
def pixel_to_data (p dmin dmax pmin pmax : ℚ) : ℚ :=
  dmin + (dmax - dmin) * (p - pmin) / (pmax - pmin)

/-- Shallow embedding of ArrayTableViewer.update_bin_attr (viewWindow.py
lines 315 to 325) with the number of rows and columns already computed from
the widget geometry: bin_size = num_rows * num_cols and n_bins =
math.ceil(full_data_len / bin_size). -/
def update_bin_attr (full_data_len num_rows num_cols : Nat) : Nat × Nat :=
  (num_rows * num_cols, ceilDiv full_data_len (num_rows * num_cols))

/-- Start and end index of the data slice shown by
ArrayTableViewer.update_table (viewWindow.py lines 300 to 301): start_idx =
bin_idx * bin_size and end_idx = min((bin_idx + 1) * bin_size,
full_data_len). -/
def page_bounds (full_data_len bin_size bin_idx : Nat) : Nat × Nat :=
  (bin_idx * bin_size, min ((bin_idx + 1) * bin_size) full_data_len)

/-- ArrayTableViewer state relevant to pagination: the current table
dimensions, the derived bin geometry, and the index of the bin currently
shown (the scroll bar value). -/
structure ViewerState where
  num_rows : Nat
  num_cols : Nat
  bin_size : Nat
  n_bins : Nat
  shown_bin : Nat
deriving DecidableEq

/-- Shallow embedding of ArrayTableViewer.update_bin_attr (viewWindow.py
lines 315 to 325) from the table widget geometry, with CELL_HEIGHT = 20 and
CELL_WIDTH = 75 from viewWindow_constants.py: num_rows =
max((h - h // 4) // CELL_HEIGHT, 1), num_cols = max(w // CELL_WIDTH, 1),
bin_size = num_rows * num_cols, n_bins = math.ceil(full_data_len /
bin_size). -/
def update_bin_attr_state (full_data_len table_height table_width : Nat)
    (s : ViewerState) : ViewerState :=
  let rows := max ((table_height - table_height / 4) / 20) 1
  let cols := max (table_width / 75) 1
  { s with num_rows := rows, num_cols := cols,
           bin_size := rows * cols,
           n_bins := ceilDiv full_data_len (rows * cols) }

/-- Shallow embedding of ArrayTableViewer.resizeEvent (viewWindow.py lines
338 to 349) together with update_scrollbar (lines 351 to 358): recompute the
bin attributes; when the number of rows or columns changed, update_table()
runs with its default bin_idx = 0 and update_scrollbar sets the scroll bar
value to 0, so the shown bin becomes 0; otherwise nothing further happens
and the shown bin is kept. -/
def resizeEvent (full_data_len table_height table_width : Nat)
    (s : ViewerState) : ViewerState :=
  let s2 := update_bin_attr_state full_data_len table_height table_width s
  if s.num_rows ≠ s2.num_rows ∨ s.num_cols ≠ s2.num_cols then
    { s2 with shown_bin := 0 }
  else s2

/-- Python truthiness of an optional float: None and 0.0 are falsy,
every other float is truthy. -/
def truthyQ : Option ℚ → Bool
  | none => false
  | some q => q != 0

/-- Python truthiness of an optional int: None and 0 are falsy. -/
def truthyZ : Option ℤ → Bool
  | none => false
  | some z => z != 0

/-- Shallow embedding of the redraw branch shared by
FigureWindow.toggle_signal (figureWindow.py lines 699 to 702) and
FigureWindow.show_data (lines 746 to 749): the plot is redrawn with the
stored pair (current_start_ratio, current_end_ratio) only when both are
truthy; otherwise update_plot() runs with its default arguments (0.0, 1.0),
i.e. the full range. -/
def redraw_args (cur_start cur_end : Option ℚ) : ℚ × ℚ :=
  if truthyQ cur_start && truthyQ cur_end then (cur_start.getD 0, cur_end.getD 0)
  else (0, 1)

/-- Shallow embedding of the guard in OverviewWidget.paintEvent
(figureWindow.py lines 214 to 225): the grey regions outside the committed
zoom are painted only when both current_start_pos and current_end_pos are
truthy. -/
def paint_outside_zoom (cur_start cur_end : Option ℤ) : Bool :=
  truthyZ cur_start && truthyZ cur_end

/-! Helper lemmas about pyRange and ceilDiv. -/

theorem pyRangeAux_eq (fuel : Nat) : ∀ (start stop step : Nat), 1 ≤ step →
    stop - start ≤ fuel →
    pyRangeAux fuel start stop step =
      (List.range (ceilDiv (stop - start) step)).map (fun k => start + k * step) := by
  induction fuel with
  | zero =>
    intro start stop step hs hf
    have h0 : stop - start = 0 := Nat.le_zero.mp hf
    have : ceilDiv 0 step = 0 := by
      unfold ceilDiv
      exact Nat.div_eq_of_lt (by omega)
    simp [pyRangeAux, h0, this]
  | succ n ih =>
    intro start stop step hs hf
    by_cases h : start < stop
    · have hstep : pyRangeAux (n + 1) start stop step =
          start :: pyRangeAux n (start + step) stop step := by
        simp [pyRangeAux, h]
      rw [hstep, ih (start + step) stop step hs (by omega)]
      have hd : 1 ≤ stop - start := by omega
      have hc : ceilDiv (stop - start) step =
          ceilDiv (stop - (start + step)) step + 1 := by
        unfold ceilDiv
        rcases le_or_lt step (stop - start) with hge | hlt
        · have e1 : stop - (start + step) + step - 1 = stop - start - 1 := by omega
          have e2 : stop - start + step - 1 = (stop - start - 1) + step := by omega
          rw [e1, e2, Nat.add_div_right _ (by omega)]
        · have e1 : stop - (start + step) = 0 := by omega
          have e2 : (step - 1) / step = 0 := Nat.div_eq_of_lt (by omega)
          have e3 : (stop - start + step - 1) / step = 1 := by
            apply Nat.div_eq_of_lt_le
            · omega
            · omega
          rw [e1, e3]
          simpa using e2
      rw [hc, List.range_succ_eq_map, List.map_cons, List.map_map]
      have hfun : ((fun k => start + k * step) ∘ Nat.succ) =
          (fun k => start + step + k * step) := by
        funext k
        simp [Function.comp, Nat.succ_mul]
        ring
      rw [hfun]
      simp
    · have h0 : stop - start = 0 := by omega
      have : ceilDiv 0 step = 0 := by
        unfold ceilDiv
        exact Nat.div_eq_of_lt (by omega)
      simp [pyRangeAux, h, h0, this]

theorem pyRange_eq (stop step : Nat) (hs : 1 ≤ step) :
    pyRange 0 stop step =
      (List.range (ceilDiv stop step)).map (fun k => k * step) := by
  unfold pyRange
  rw [pyRangeAux_eq (stop - 0) 0 stop step hs (by omega)]
  simp

theorem pyRange_length (stop step : Nat) (hs : 1 ≤ step) :
    (pyRange 0 stop step).length = ceilDiv stop step := by
  rw [pyRange_eq stop step hs]
  simp

theorem ceilDiv_le_self (N b : Nat) (hb : 1 ≤ b) (hN : 1 ≤ N) :
    ceilDiv N b ≤ N := by
  unfold ceilDiv
  have h2 : (N + b - 1) / b < N + 1 := by
    rw [Nat.div_lt_iff_lt_mul (by omega : 0 < b)]
    have h3 : N ≤ N * b := Nat.le_mul_of_pos_right N (by omega)
    have h4 : (N + 1) * b = N * b + b := by ring
    omega
  omega

theorem mul_lt_of_lt_ceilDiv (N b k : Nat) (hb : 1 ≤ b)
    (hk : k < ceilDiv N b) : k * b < N := by
  by_contra hcon
  push_neg at hcon
  have hle : ceilDiv N b ≤ k := by
    unfold ceilDiv
    have h1 : (N + b - 1) / b < k + 1 := by
      rw [Nat.div_lt_iff_lt_mul (by omega : 0 < b)]
      have h2 : (k + 1) * b = k * b + b := by ring
      omega
    omega
  omega

theorem npMedian_map_some (c : List ℚ) (hc : c ≠ []) :
    npMedian (c.map some) = some (ratMedian c) := by
  unfold npMedian
  rw [if_neg]
  · simp
  · simp [hc]

/-! Helper lemma for the zoom-range invariant: dividing a pixel pair
0 ≤ s ≤ e ≤ w by a positive width w gives a pair inside [0, 1]. -/

theorem div_pair_in_unit (s e w : ℤ) (hw : 0 < w) (h0 : 0 ≤ s) (hse : s ≤ e)
    (hew : e ≤ w) :
    0 ≤ (s : ℚ) / (w : ℚ) ∧ (s : ℚ) / (w : ℚ) ≤ (e : ℚ) / (w : ℚ) ∧
      (e : ℚ) / (w : ℚ) ≤ 1 := by
  have hwq : (0 : ℚ) < (w : ℚ) := by exact_mod_cast hw
  refine ⟨div_nonneg (by exact_mod_cast h0) (le_of_lt hwq), ?_, ?_⟩
  · have hseq : (s : ℚ) ≤ (e : ℚ) := by exact_mod_cast hse
    gcongr
  · rw [div_le_one hwq]
    exact_mod_cast hew

/-! Concrete evaluations used by the claim theorems. -/

/-- Claim C1: on pointer release, a zero-width drag at pixel 50 on a 500 px
overview with x_lims = (0, 1000) commits ratios (0.098, 0.102), as the
claim states; but for a short non-zero selection the code computes middle =
int((end_x - start_x) / 2), half of the selection width, instead of the
midpoint of the selection: anchor 100, release 105 commits pixels (1, 3),
i.e. ratios (0.002, 0.006), not the selection-midpoint ratios
(0.202, 0.206) the claim describes. -/
theorem c1_small_selection_eval :
    mouseReleaseEvent 50 50 0 1000 500 = ((49 : ℚ) / 500, (51 : ℚ) / 500) ∧
    mouseReleaseEvent 100 105 0 1000 500 = ((1 : ℚ) / 500, (3 : ℚ) / 500) ∧
    mouseReleaseEvent 100 105 0 1000 500 ≠ ((101 : ℚ) / 500, (103 : ℚ) / 500) := by
  refine ⟨?_, ?_, ?_⟩ <;> norm_num [mouseReleaseEvent, Prod.ext_iff]

/-- Claim C5: set_zoom is not symmetric in its two arguments.  With
x_lims = (0, 1000), set_zoom(5, 3) collapses to the pair (0.003, 0.003),
because the source computes x2 = max(x1, x2) after already reassigning
x1 = min(x1, x2), while set_zoom(3, 5) yields (0.003, 0.005). -/
theorem c5_swap_eval :
    set_zoom 5 3 0 1000 = ((3 : ℚ) / 1000, (3 : ℚ) / 1000) ∧
    set_zoom 3 5 0 1000 = ((3 : ℚ) / 1000, (5 : ℚ) / 1000) ∧
    set_zoom 5 3 0 1000 ≠ set_zoom 3 5 0 1000 := by
  refine ⟨?_, ?_, ?_⟩ <;> norm_num [set_zoom, Prod.ext_iff]

/-- Claim C7, counterexample: a pointer commit whose release pixel crosses
the right edge of a 500 px overview with x_lims = (0, 1000) emits
end_ratio = 600 / 500 = 1.2 > 1, because the source clamps the pixel pair
against x_lims rather than against the widget width. -/
theorem c7_counterexample :
    mouseReleaseEvent 400 600 0 1000 500 = ((400 : ℚ) / 500, (600 : ℚ) / 500) ∧
    ¬ (mouseReleaseEvent 400 600 0 1000 500).2 ≤ 1 := by
  constructor
  · norm_num [mouseReleaseEvent, Prod.ext_iff]
  · norm_num [mouseReleaseEvent]

/-- Claim C2, counterexample: for values of length 10 and target_bins = 3
the aggregation produces 4 bins (bin_size = 3, bins at 0, 3, 6, 9), which
exceeds target_bins. -/
theorem c2_counterexample :
    (subsample_data (List.replicate 10 (some (1 : ℚ))) 3).1.length = 4 ∧
    ¬ (subsample_data (List.replicate 10 (some (1 : ℚ))) 3).1.length ≤ 3 := by
  refine ⟨by decide, by decide⟩

/-- Claim C6, counterexample: a bin slice holding the values [1.0, NaN]
contains the non-NaN value 1, yet the bin value computed by np.median is
NaN, not the NaN-skipping median 1. -/
theorem c6_counterexample :
    (subsample_data [some (1 : ℚ), none] 1).2 = [none] ∧
    (subsample_data [some (1 : ℚ), none] 1).2 ≠ [some (1 : ℚ)] := by
  refine ⟨by decide, by decide⟩

/-- Claim C8, counterexample: starting from a table of 2 rows and 2 columns
showing bin 1 of a 20-element array, a resize to a table geometry of 3 rows
and 3 columns (table height 80, width 225) yields n_bins = 3, so the old
page index 1 is still in range, yet the shown bin is reset to 0 rather than
preserved. -/
theorem c8_counterexample :
    (resizeEvent 20 80 225 ⟨2, 2, 4, 5, 1⟩).shown_bin = 0 ∧
    (resizeEvent 20 80 225 ⟨2, 2, 4, 5, 1⟩).n_bins = 3 ∧
    ¬ (resizeEvent 20 80 225 ⟨2, 2, 4, 5, 1⟩).shown_bin = 1 := by
  refine ⟨by decide, by decide, by decide⟩

/-- Claim C2 (amended): for every non-empty input of length N and every
target_bins at least 1, the aggregation never produces more bins than input
samples: the lengths of both components of the result are at most N.  The
additional bound by target_bins claimed in the design document fails, see
the counterexample. -/
theorem c2_bin_count_le_input (values : List (Option ℚ)) (target_bins : Nat)
    (_hT : 1 ≤ target_bins) (hN : 1 ≤ values.length) :
    (subsample_data values target_bins).1.length ≤ values.length ∧
    (subsample_data values target_bins).2.length ≤ values.length := by
  have hbs : 1 ≤ max 1 (values.length / target_bins) := le_max_left 1 _
  have hlen : (pyRange 0 values.length (max 1 (values.length / target_bins))).length =
      ceilDiv values.length (max 1 (values.length / target_bins)) :=
    pyRange_length _ _ hbs
  have hle : ceilDiv values.length (max 1 (values.length / target_bins)) ≤
      values.length := ceilDiv_le_self _ _ hbs hN
  constructor
  · simpa [subsample_data, hlen] using hle
  · simpa [subsample_data, hlen] using hle

/-- Claim C2, witness of the amended bound at length 10 and target 3. -/
theorem c2_bin_count_le_input_witness :
    1 ≤ 3 ∧ 1 ≤ (List.replicate 10 (some (1 : ℚ))).length ∧
    (subsample_data (List.replicate 10 (some (1 : ℚ))) 3).1.length ≤
      (List.replicate 10 (some (1 : ℚ))).length ∧
    (subsample_data (List.replicate 10 (some (1 : ℚ))) 3).2.length ≤
      (List.replicate 10 (some (1 : ℚ))).length := by
  refine ⟨by decide, by decide, ?_⟩
  exact c2_bin_count_le_input (List.replicate 10 (some (1 : ℚ))) 3 (by decide) (by decide)

/-- Claim C8 (amended): when the viewport capacity recomputation after a
resize changes the number of rows or columns, the shown page index is reset
to 0 (update_table runs with its default bin index and the scroll bar value
is set to 0), not preserved; when the recomputed dimensions are unchanged,
the shown page index is kept. -/
theorem c8_resize_resets_page (full_data_len table_height table_width : Nat)
    (s : ViewerState) :
    ((update_bin_attr_state full_data_len table_height table_width s).num_rows ≠ s.num_rows ∨
     (update_bin_attr_state full_data_len table_height table_width s).num_cols ≠ s.num_cols →
      (resizeEvent full_data_len table_height table_width s).shown_bin = 0) ∧
    ((update_bin_attr_state full_data_len table_height table_width s).num_rows = s.num_rows ∧
     (update_bin_attr_state full_data_len table_height table_width s).num_cols = s.num_cols →
      (resizeEvent full_data_len table_height table_width s).shown_bin = s.shown_bin) := by
  constructor
  · intro h
    unfold resizeEvent
    rw [if_pos]
    tauto
  · rintro ⟨h1, h2⟩
    unfold resizeEvent
    rw [if_neg]
    · simp [update_bin_attr_state]
    · simp [h1.symm, h2.symm]

/-- Claim C8, witness: the reset branch applied to the concrete resize of
the counterexample. -/
theorem c8_resize_resets_page_witness :
    ((update_bin_attr_state 20 80 225 ⟨2, 2, 4, 5, 1⟩).num_rows ≠ (2 : Nat) ∨
     (update_bin_attr_state 20 80 225 ⟨2, 2, 4, 5, 1⟩).num_cols ≠ (2 : Nat)) ∧
    (resizeEvent 20 80 225 ⟨2, 2, 4, 5, 1⟩).shown_bin = 0 :=
  ⟨by decide, (c8_resize_resets_page 20 80 225 ⟨2, 2, 4, 5, 1⟩).1 (by decide)⟩

/-- Claim C4: for every N at least 1 and viewport rows, cols at least 1, the
geometry computed by update_bin_attr has bin_size = rows * cols and
page_count = ceil(N / bin_size); page i covers the half-open interval from
i * bin_size to min((i + 1) * bin_size, N); and the pages exactly cover
[0, N), with every index lying in exactly one page. -/
theorem c4_pagination_coverage (N rows cols : Nat) (hN : 1 ≤ N)
    (hr : 1 ≤ rows) (hc : 1 ≤ cols) :
    (update_bin_attr N rows cols).1 = rows * cols ∧
    (update_bin_attr N rows cols).2 = ceilDiv N (rows * cols) ∧
    (∀ j, j < N ↔ ∃ i, i < (update_bin_attr N rows cols).2 ∧
      (page_bounds N (rows * cols) i).1 ≤ j ∧
      j < (page_bounds N (rows * cols) i).2) ∧
    (∀ i1 i2 j, i1 < (update_bin_attr N rows cols).2 →
      i2 < (update_bin_attr N rows cols).2 →
      (page_bounds N (rows * cols) i1).1 ≤ j →
      j < (page_bounds N (rows * cols) i1).2 →
      (page_bounds N (rows * cols) i2).1 ≤ j →
      j < (page_bounds N (rows * cols) i2).2 → i1 = i2) := by
  have hbs : 1 ≤ rows * cols := Nat.one_le_iff_ne_zero.mpr (by positivity)
  set bs := rows * cols with hbsdef
  have hcount : (update_bin_attr N rows cols).2 = ceilDiv N bs := rfl
  have div_in_range : ∀ j, j < N → j / bs < ceilDiv N bs := by
    intro j hj
    have h1 : j / bs ≤ (N - 1) / bs := Nat.div_le_div_right (by omega)
    have h2 : ceilDiv N bs = (N - 1) / bs + 1 := by
      unfold ceilDiv
      have e : N + bs - 1 = (N - 1) + bs := by omega
      rw [e, Nat.add_div_right _ (by omega)]
    omega
  refine ⟨rfl, rfl, ?_, ?_⟩
  · intro j
    constructor
    · intro hj
      refine ⟨j / bs, div_in_range j hj, ?_, ?_⟩
      · exact Nat.div_mul_le_self j bs
      · have hmod : j % bs < bs := Nat.mod_lt j (by omega)
        have hdm : bs * (j / bs) + j % bs = j := Nat.div_add_mod j bs
        have hexp : (j / bs + 1) * bs = bs * (j / bs) + bs := by ring
        simp only [page_bounds, lt_min_iff]
        omega
    · rintro ⟨i, _, _, hub⟩
      have : j < min ((i + 1) * bs) N := hub
      omega
  · intro i1 i2 j _ _ hl1 hu1 hl2 hu2
    simp only [page_bounds, lt_min_iff] at hl1 hu1 hl2 hu2
    have e1 : j / bs = i1 := Nat.div_eq_of_lt_le hl1 hu1.1
    have e2 : j / bs = i2 := Nat.div_eq_of_lt_le hl2 hu2.1
    omega

/-- Claim C4, witness at Scenario C: rows = 10, cols = 10, N = 95 gives
bin_size = 100, page_count = 1, and page 0 covering the interval [0, 95). -/
theorem c4_pagination_coverage_witness :
    (1 ≤ 95 ∧ 1 ≤ 10 ∧ update_bin_attr 95 10 10 = (100, 1) ∧
      page_bounds 95 100 0 = (0, 95)) ∧
    ((update_bin_attr 95 10 10).1 = 10 * 10 ∧
     (update_bin_attr 95 10 10).2 = ceilDiv 95 (10 * 10) ∧
     (∀ j, j < 95 ↔ ∃ i, i < (update_bin_attr 95 10 10).2 ∧
       (page_bounds 95 (10 * 10) i).1 ≤ j ∧
       j < (page_bounds 95 (10 * 10) i).2) ∧
     (∀ i1 i2 j, i1 < (update_bin_attr 95 10 10).2 →
       i2 < (update_bin_attr 95 10 10).2 →
       (page_bounds 95 (10 * 10) i1).1 ≤ j →
       j < (page_bounds 95 (10 * 10) i1).2 →
       (page_bounds 95 (10 * 10) i2).1 ≤ j →
       j < (page_bounds 95 (10 * 10) i2).2 → i1 = i2)) :=
  ⟨⟨by decide, by decide, by decide, by decide⟩,
   c4_pagination_coverage 95 10 10 (by decide) (by decide) (by decide)⟩

/-- Claim C3: for every NaN-free values array of length N with
N > target_bins at least 1, the aggregation uses bin_size =
max(1, floor(N / target_bins)) (which then equals floor(N / target_bins)),
and emits for each i in 0, bin_size, 2 * bin_size, ... the index i together
with the median of values[i : i + bin_size]; the last bin is the shorter
remainder, without padding. -/
theorem c3_aggregation_bins (l : List ℚ) (target_bins : Nat)
    (hT : 1 ≤ target_bins) (hN : target_bins < l.length) :
    max 1 (l.length / target_bins) = l.length / target_bins ∧
    (subsample_data (l.map some) target_bins).1 =
      (List.range (ceilDiv l.length (l.length / target_bins))).map
        (fun k => k * (l.length / target_bins)) ∧
    (subsample_data (l.map some) target_bins).2 =
      (List.range (ceilDiv l.length (l.length / target_bins))).map
        (fun k => some (ratMedian
          ((l.drop (k * (l.length / target_bins))).take
            (l.length / target_bins)))) := by
  have hbs : 1 ≤ l.length / target_bins :=
    (Nat.one_le_div_iff (by omega)).mpr (le_of_lt hN)
  have hmax : max 1 (l.length / target_bins) = l.length / target_bins :=
    max_eq_right hbs
  refine ⟨hmax, ?_, ?_⟩
  · unfold subsample_data
    simp only [List.length_map, hmax]
    exact pyRange_eq _ _ hbs
  · unfold subsample_data
    simp only [List.length_map, hmax]
    rw [pyRange_eq _ _ hbs, List.map_map]
    apply List.map_congr_left
    intro k hk
    have hk2 : k < ceilDiv l.length (l.length / target_bins) :=
      List.mem_range.mp hk
    have hlt : k * (l.length / target_bins) < l.length :=
      mul_lt_of_lt_ceilDiv l.length (l.length / target_bins) k hbs hk2
    simp only [Function.comp]
    rw [← List.map_drop, ← List.map_take]
    apply npMedian_map_some
    apply List.ne_nil_of_length_pos
    simp only [List.length_take, List.length_drop]
    omega

/-- Claim C3, witness at Scenario A: values 1 to 10 with target 3 yield
bin_size 3, bins at indices 0, 3, 6, 9 and medians 2, 5, 8, 10. -/
theorem c3_aggregation_bins_witness :
    (1 ≤ 3 ∧ 3 < ([1, 2, 3, 4, 5, 6, 7, 8, 9, 10] : List ℚ).length) ∧
    (max 1 (([1, 2, 3, 4, 5, 6, 7, 8, 9, 10] : List ℚ).length / 3) =
       ([1, 2, 3, 4, 5, 6, 7, 8, 9, 10] : List ℚ).length / 3 ∧
     (subsample_data (([1, 2, 3, 4, 5, 6, 7, 8, 9, 10] : List ℚ).map some) 3).1 =
       (List.range (ceilDiv ([1, 2, 3, 4, 5, 6, 7, 8, 9, 10] : List ℚ).length
         (([1, 2, 3, 4, 5, 6, 7, 8, 9, 10] : List ℚ).length / 3))).map
         (fun k => k * (([1, 2, 3, 4, 5, 6, 7, 8, 9, 10] : List ℚ).length / 3)) ∧
     (subsample_data (([1, 2, 3, 4, 5, 6, 7, 8, 9, 10] : List ℚ).map some) 3).2 =
       (List.range (ceilDiv ([1, 2, 3, 4, 5, 6, 7, 8, 9, 10] : List ℚ).length
         (([1, 2, 3, 4, 5, 6, 7, 8, 9, 10] : List ℚ).length / 3))).map
         (fun k => some (ratMedian
           ((([1, 2, 3, 4, 5, 6, 7, 8, 9, 10] : List ℚ).drop
             (k * (([1, 2, 3, 4, 5, 6, 7, 8, 9, 10] : List ℚ).length / 3))).take
             (([1, 2, 3, 4, 5, 6, 7, 8, 9, 10] : List ℚ).length / 3))))) ∧
    subsample_data (([1, 2, 3, 4, 5, 6, 7, 8, 9, 10] : List ℚ).map some) 3 =
      ([0, 3, 6, 9], [some 2, some 5, some 8, some 10]) :=
  ⟨⟨by decide, by decide⟩,
   c3_aggregation_bins [1, 2, 3, 4, 5, 6, 7, 8, 9, 10] 3 (by decide) (by decide),
   by decide⟩

/-- Claim C6 (amended): a bin value is NaN exactly when the bin slice
contains at least one NaN, because np.median propagates NaN instead of
skipping it; only a bin whose slice is entirely non-NaN gets the plain
median of its values. -/
theorem c6_nan_bins (values : List (Option ℚ)) (target_bins k : Nat)
    (hk : k < (subsample_data values target_bins).2.length) :
    ((subsample_data values target_bins).2.getD k none = none ↔
      none ∈ bin_slice values target_bins k) ∧
    (none ∉ bin_slice values target_bins k →
      (subsample_data values target_bins).2.getD k none =
        some (ratMedian ((bin_slice values target_bins k).filterMap id))) := by
  have hbs : 1 ≤ max 1 (values.length / target_bins) := le_max_left 1 _
  have hy : (subsample_data values target_bins).2 =
      (pyRange 0 values.length (max 1 (values.length / target_bins))).map
        (fun i => npMedian ((values.drop i).take
          (max 1 (values.length / target_bins)))) := rfl
  have hlen : (subsample_data values target_bins).2.length =
      ceilDiv values.length (max 1 (values.length / target_bins)) := by
    rw [hy, List.length_map, pyRange_length _ _ hbs]
  have hk2 : k < ceilDiv values.length (max 1 (values.length / target_bins)) := by
    omega
  have hlt : k * max 1 (values.length / target_bins) < values.length :=
    mul_lt_of_lt_ceilDiv _ _ k hbs hk2
  have hget : (subsample_data values target_bins).2.getD k none =
      npMedian (bin_slice values target_bins k) := by
    rw [hy, List.getD_eq_getElem?_getD, List.getElem?_map, pyRange_eq _ _ hbs,
      List.getElem?_map, List.getElem?_range hk2]
    rfl
  have hne : bin_slice values target_bins k ≠ [] := by
    apply List.ne_nil_of_length_pos
    unfold bin_slice
    simp only [List.length_take, List.length_drop]
    omega
  rw [hget]
  unfold npMedian
  by_cases hmem : none ∈ bin_slice values target_bins k
  · rw [if_pos (Or.inr hmem)]
    exact ⟨⟨fun _ => hmem, fun _ => rfl⟩, fun h => absurd hmem h⟩
  · rw [if_neg (by simp [hmem, hne])]
    exact ⟨⟨fun h => Option.noConfusion h, fun h => absurd h hmem⟩, fun _ => rfl⟩

/-- Claim C6, witness: for the NaN-free input [1, 2, 3] with target 3, bin 0
is the singleton slice [1], which contains no NaN, and the bin value is its
median 1. -/
theorem c6_nan_bins_witness :
    (0 < (subsample_data [some (1 : ℚ), some 2, some 3] 3).2.length) ∧
    (((subsample_data [some (1 : ℚ), some 2, some 3] 3).2.getD 0 none = none ↔
       none ∈ bin_slice [some (1 : ℚ), some 2, some 3] 3 0) ∧
     (none ∉ bin_slice [some (1 : ℚ), some 2, some 3] 3 0 →
       (subsample_data [some (1 : ℚ), some 2, some 3] 3).2.getD 0 none =
         some (ratMedian ((bin_slice [some (1 : ℚ), some 2, some 3] 3 0).filterMap id)))) :=
  ⟨by decide, c6_nan_bins [some (1 : ℚ), some 2, some 3] 3 0 (by decide)⟩

/-- Claim C7 (amended): commits through set_zoom with x_lims = (0, x_max)
satisfy the ZoomWindow invariant 0 ≤ start ≤ end ≤ 1 whenever 0 ≤ x2 ≤
x_max; pointer-release commits satisfy it whenever the widget width is at
least 5, width ≤ x_max, the anchor lies in [0, width - 1] and the release
in [0, width].  A selection touching or crossing the right edge can emit
end_ratio > 1 (see the counterexample), because the source clamps pixels
against x_lims rather than the width. -/
theorem c7_zoom_invariant :
    (∀ x1 x2 x_max : ℤ, 0 < x_max → 0 ≤ x2 → x2 ≤ x_max →
      0 ≤ (set_zoom x1 x2 0 x_max).1 ∧
      (set_zoom x1 x2 0 x_max).1 ≤ (set_zoom x1 x2 0 x_max).2 ∧
      (set_zoom x1 x2 0 x_max).2 ≤ 1) ∧
    (∀ anchor release x_max width : ℤ, 5 ≤ width → width ≤ x_max →
      0 ≤ anchor → anchor ≤ width - 1 → 0 ≤ release → release ≤ width →
      0 ≤ (mouseReleaseEvent anchor release 0 x_max width).1 ∧
      (mouseReleaseEvent anchor release 0 x_max width).1 ≤
        (mouseReleaseEvent anchor release 0 x_max width).2 ∧
      (mouseReleaseEvent anchor release 0 x_max width).2 ≤ 1) := by
  constructor
  · intro x1 x2 x_max hM h0 hle
    have key := div_pair_in_unit (max 0 (min x1 x2) - 0)
      (min x_max (max (min x1 x2) x2) - 0) (x_max - 0)
      (by omega) (by omega) (by omega) (by omega)
    simpa [set_zoom] using key
  · intro anchor release x_max width h5 hwM ha0 haw hr0 hrw
    simp only [mouseReleaseEvent]
    split_ifs with h1 h2
    · exact div_pair_in_unit _ _ _ (by omega) (by omega) (by omega) (by omega)
    · exact div_pair_in_unit _ _ _ (by omega) (by omega) (by omega) (by omega)
    · exact div_pair_in_unit _ _ _ (by omega) (by omega) (by omega) (by omega)

/-- Claim C7, witness: the numeric commit set_zoom(100, 300) with x_lims =
(0, 1000) and the pointer commit of a click at pixel 50 on a 500 px wide
overview both satisfy the ZoomWindow invariant. -/
theorem c7_zoom_invariant_witness :
    ((0 : ℤ) < 1000 ∧ (0 : ℤ) ≤ 300 ∧ (300 : ℤ) ≤ 1000 ∧
      (0 ≤ (set_zoom 100 300 0 1000).1 ∧
       (set_zoom 100 300 0 1000).1 ≤ (set_zoom 100 300 0 1000).2 ∧
       (set_zoom 100 300 0 1000).2 ≤ 1)) ∧
    ((5 : ℤ) ≤ 500 ∧ (500 : ℤ) ≤ 1000 ∧ (0 : ℤ) ≤ 50 ∧ (50 : ℤ) ≤ 500 - 1 ∧
      (0 ≤ (mouseReleaseEvent 50 50 0 1000 500).1 ∧
       (mouseReleaseEvent 50 50 0 1000 500).1 ≤
         (mouseReleaseEvent 50 50 0 1000 500).2 ∧
       (mouseReleaseEvent 50 50 0 1000 500).2 ≤ 1)) :=
  ⟨⟨by norm_num, by norm_num, by norm_num,
    c7_zoom_invariant.1 100 300 1000 (by norm_num) (by norm_num) (by norm_num)⟩,
   ⟨by norm_num, by norm_num, by norm_num, by norm_num,
    c7_zoom_invariant.2 50 50 1000 500 (by norm_num) (by norm_num) (by norm_num)
      (by norm_num) (by norm_num) (by norm_num)⟩⟩

/-- Claim C9: for every value v and non-degenerate domain descriptors
(dmin ≠ dmax and pmin ≠ pmax), mapping v to pixel space with the affine map
of scale_between and back with its inverse returns v exactly, hence in
particular within a relative tolerance of one billionth. -/
theorem c9_roundtrip (v dmin dmax pmin pmax : ℚ) (hd : dmin ≠ dmax)
    (hp : pmin ≠ pmax) :
    pixel_to_data (data_to_pixel v dmin dmax pmin pmax) dmin dmax pmin pmax = v ∧
    |pixel_to_data (data_to_pixel v dmin dmax pmin pmax) dmin dmax pmin pmax - v| ≤
      |v| / 1000000000 := by
  have h1 : dmax - dmin ≠ 0 := sub_ne_zero.mpr (Ne.symm hd)
  have h2 : pmax - pmin ≠ 0 := sub_ne_zero.mpr (Ne.symm hp)
  have key : pixel_to_data (data_to_pixel v dmin dmax pmin pmax)
      dmin dmax pmin pmax = v := by
    unfold pixel_to_data data_to_pixel
    field_simp
    ring
  refine ⟨key, ?_⟩
  rw [key, sub_self, abs_zero]
  positivity

/-- Claim C9, witness at v = 7 over the data domain (0, 1000) and the pixel
range (0, 500). -/
theorem c9_roundtrip_witness :
    ((0 : ℚ) ≠ 1000 ∧ (0 : ℚ) ≠ 500) ∧
    (pixel_to_data (data_to_pixel 7 0 1000 0 500) 0 1000 0 500 = 7 ∧
     |pixel_to_data (data_to_pixel 7 0 1000 0 500) 0 1000 0 500 - 7| ≤
       |(7 : ℚ)| / 1000000000) :=
  ⟨⟨by norm_num, by norm_num⟩, c9_roundtrip 7 0 1000 0 500 (by norm_num) (by norm_num)⟩

/-- Claim C10: a committed zoom whose stored start ratio is the float 0.0
(left-edge zoom) is falsy under the Python truthiness tests in
toggle_signal, show_data and paintEvent, so a visibility toggle or a
raw/normalized switch redraws the full range (0.0, 1.0) instead of the
committed zoom, and the grey outside-of-zoom region is not painted when the
stored start position is the pixel 0. -/
theorem c10_zero_start_treated_as_no_zoom (cur_end : Option ℚ)
    (pos_end : Option ℤ) :
    redraw_args (some 0) cur_end = (0, 1) ∧
    paint_outside_zoom (some 0) pos_end = false := by
  constructor
  · simp [redraw_args, truthyQ]
  · simp [paint_outside_zoom, truthyZ]
